import Mathlib

/-!
Shallow embedding of the CRUDER user-record service: the repository layer
(`internal/repository`, part_008), the service layer (`internal/service/users.go`),
and the HTTP controller status policy (`internal/controller/users.go`), together
with proofs about error classification, the partial-update query builder,
normalization, validation, and the delete idempotency policy.

Storage-driver interactions are embedded at the response level: each repository
operation is a pure function of the response the single SQL statement it issues
would produce, and additionally reports the statement(s) it issued.
-/

namespace Cruder

/-- Record identity: `uuid.UUID`, used only for equality and pass-through. -/
abbrev UUID := Nat

/-- `model.User` (internal/model/users.go): id, username, email, full_name,
created_at, updated_at.  Timestamps are modelled as abstract instants (`Nat`). -/
structure User where
  id : UUID
  username : String
  email : String
  fullName : String
  createdAt : Nat
  updatedAt : Nat
deriving DecidableEq, Repr

/-- `model.CreateUserRequest`: three required string fields. -/
structure CreateUserRequest where
  username : String
  email : String
  fullName : String
deriving DecidableEq, Repr

/-- `model.UpdateUserRequest`: three optional (`*string`) fields, `none` meaning
the JSON key was omitted.  The struct's pointer-field shape is determined by its
uses in repository.Update (`req.Username != nil`, `*req.Username`, ...) and in
service.Update. -/
structure UpdateUserRequest where
  username : Option String
  email : Option String
  fullName : Option String
deriving DecidableEq, Repr

/-- Raw errors a storage-driver call can yield: `sql.ErrNoRows`, a `*pq.Error`
carrying a code and a message, or any other driver error. -/
inductive StoreErr
  | noRows
  | pq (code : String) (message : String)
  | other (message : String)
deriving DecidableEq, Repr

/-- Errors as observed above the repository: the sentinels of
internal/errors/errors.go (`ErrUserNotFound`, `ErrInvalidInput` wrapped with a
detail message by `fmt.Errorf("%w: ...")`, `ErrUsernameExists`, `ErrEmailExists`,
`ErrDatabaseOperation`), or a raw driver error passed through unclassified. -/
inductive GoErr
  | userNotFound
  | invalidInput (detail : String)
  | usernameExists
  | emailExists
  | databaseOperation
  | raw (e : StoreErr)
deriving DecidableEq, Repr

/-- Whether an error is a member of the closed domain taxonomy (as opposed to a
raw storage error that leaked through). -/
def isTaxonomyErr : GoErr → Bool
  | .raw _ => false
  | _ => true

/-- `errors.Is(e, errors.ErrUserNotFound)`. -/
def GoErr.isUserNotFound : GoErr → Bool
  | .userNotFound => true
  | _ => false

/-- `errors.Is(e, errors.ErrInvalidInput)` (true also for the wrapped form). -/
def GoErr.isInvalidInput : GoErr → Bool
  | .invalidInput _ => true
  | _ => false

/-- `errors.Is(e, errors.ErrUsernameExists)`. -/
def GoErr.isUsernameExists : GoErr → Bool
  | .usernameExists => true
  | _ => false

/-- `errors.Is(e, errors.ErrEmailExists)`. -/
def GoErr.isEmailExists : GoErr → Bool
  | .emailExists => true
  | _ => false

/-- `errors.Is(e, errors.ErrDatabaseOperation)`. -/
def GoErr.isDatabaseOp : GoErr → Bool
  | .databaseOperation => true
  | _ => false

/-- Whether a repository/service result is the domain not-found error. -/
def isNotFoundResult {α : Type} : Except GoErr α → Bool
  | .error .userNotFound => true
  | _ => false

/-- Whether an `Except` result is a success. -/
def exceptIsOk {α : Type} : Except GoErr α → Bool
  | .ok _ => true
  | .error _ => false

/-- `strings.Contains` on the character lists of two strings (substring test). -/
def containsSub : List Char → List Char → Bool
  | _, [] => true
  | [], _ :: _ => false
  | c :: rest, sub => List.isPrefixOf sub (c :: rest) || containsSub rest sub

/-- Go `strings.Contains s sub`. -/
def goContains (s sub : String) : Bool := containsSub s.data sub.data

/-- The error mapping on the repository Create write path (part_008 lines
216-231): a `*pq.Error` with unique-violation code 23505 whose message contains
"username" maps to `ErrUsernameExists`, else if it contains "email" to
`ErrEmailExists`; every other error (including an undeterminable unique
violation) falls through to `return nil, err`, i.e. is returned raw. -/
def createErrMap (e : StoreErr) : GoErr :=
  match e with
  | .pq code msg =>
    if code = "23505" then
      if goContains msg "username" then .usernameExists
      else if goContains msg "email" then .emailExists
      else .raw (.pq code msg)
    else .raw (.pq code msg)
  | e => .raw e

/-- The error mapping on the repository Update write path (part_008 lines
280-298): `sql.ErrNoRows` (zero rows affected by `UPDATE ... RETURNING`) maps to
`ErrUserNotFound`; then the same unique-violation classification as Create;
every other error is returned raw. -/
def updateErrMap (e : StoreErr) : GoErr :=
  match e with
  | .noRows => .userNotFound
  | .pq code msg =>
    if code = "23505" then
      if goContains msg "username" then .usernameExists
      else if goContains msg "email" then .emailExists
      else .raw (.pq code msg)
    else .raw (.pq code msg)
  | .other m => .raw (.other m)

/-- repository.GetByID (part_008 lines 186-197), as a function of the driver's
response to its SELECT: `sql.ErrNoRows` becomes `ErrUserNotFound`, any other
error is returned raw, a scanned row is returned as-is. -/
def repoGetByID (resp : Except StoreErr User) : Except GoErr User :=
  match resp with
  | .ok u => .ok u
  | .error .noRows => .error .userNotFound
  | .error e => .error (.raw e)

/-- repository.GetByUsername (part_008 lines 173-184): same shape as GetByID. -/
def repoGetByUsername (resp : Except StoreErr User) : Except GoErr User :=
  match resp with
  | .ok u => .ok u
  | .error .noRows => .error .userNotFound
  | .error e => .error (.raw e)

/-- repository.GetAll (part_008 lines 150-171): any query/scan/iteration error
is returned raw; a successful scan returns the accumulated slice (nil, hence the
empty list, when the table has no rows). -/
def repoGetAll (resp : Except StoreErr (List User)) : Except GoErr (List User) :=
  match resp with
  | .ok us => .ok us
  | .error e => .error (.raw e)

/-- repository.Create (part_008 lines 199-234): the INSERT's response is either
the created row or an error classified by `createErrMap`. -/
def repoCreate (resp : Except StoreErr User) : Except GoErr User :=
  match resp with
  | .ok u => .ok u
  | .error e => .error (createErrMap e)

/-- repository.Delete (part_008 lines 306-325), as a function of the driver's
response to its DELETE (`Except` of the rows-affected count): a driver error is
returned raw; zero rows affected is reported as `ErrUserNotFound`; otherwise
success (`nil`, modelled as `none`). -/
def repoDelete (resp : Except StoreErr Nat) : Option GoErr :=
  match resp with
  | .error e => some (.raw e)
  | .ok n => if n = 0 then some .userNotFound else none

/-- A positional SQL parameter: a bound string or the record identifier. -/
inductive SqlArg
  | s (v : String)
  | uid (v : UUID)
deriving DecidableEq, Repr

/-- The dynamic clause/argument accumulation of repository.Update (part_008
lines 238-256): starting from empty `updates`/`args` and `argPosition = 1`, the
three fields are checked in the fixed source order username, email, full_name;
each present field appends `"<column> = $<argPosition>"` and its value and
increments `argPosition`. -/
def updateClauses (req : UpdateUserRequest) : List String × List SqlArg × Nat :=
  let updates : List String := []
  let args : List SqlArg := []
  let argPosition : Nat := 1
  let (updates, args, argPosition) :=
    match req.username with
    | some v => (updates ++ ["username = $" ++ toString argPosition],
                 args ++ [SqlArg.s v], argPosition + 1)
    | none => (updates, args, argPosition)
  let (updates, args, argPosition) :=
    match req.email with
    | some v => (updates ++ ["email = $" ++ toString argPosition],
                 args ++ [SqlArg.s v], argPosition + 1)
    | none => (updates, args, argPosition)
  let (updates, args, argPosition) :=
    match req.fullName with
    | some v => (updates ++ ["full_name = $" ++ toString argPosition],
                 args ++ [SqlArg.s v], argPosition + 1)
    | none => (updates, args, argPosition)
  (updates, args, argPosition)

/-- `strings.Join(updates, ", ")`. -/
def joinComma (l : List String) : String := String.intercalate ", " l

/-- The UPDATE statement text of part_008 lines 266-271: the Go raw string with
`%s` replaced by the joined SET clauses and `%d` by the WHERE parameter
position. -/
def updateQueryText (setClause : String) (wherePos : Nat) : String :=
  "\n\t\tUPDATE users\n\t\tSET " ++ setClause ++
    "\n\t\tWHERE id = $" ++ toString wherePos ++
    "\n\t\tRETURNING id, username, email, full_name, created_at, updated_at\n\t"

/-- A statement issued by a repository operation against storage. -/
inductive RepoStmt
  | selectAll
  | selectById (id : UUID)
  | selectByUsername (u : String)
  | insertUser (username email fullName : String)
  | updateUser (text : String) (args : List SqlArg)
  | deleteById (id : UUID)
deriving DecidableEq, Repr

/-- Whether a statement mutates storage. -/
def RepoStmt.isWrite : RepoStmt → Bool
  | .insertUser _ _ _ => true
  | .updateUser _ _ => true
  | .deleteById _ => true
  | _ => false

/-- repository.Update (part_008 lines 236-301), as a function of the driver's
response to the single statement it issues, also reporting that statement: when
no field is present it short-circuits to `return r.GetByID(id)` (issuing only
that SELECT); otherwise it appends `"updated_at = CURRENT_TIMESTAMP"` to the
clauses and the id as the final argument, builds the statement text, and
classifies any execution error with `updateErrMap`. -/
def repoUpdate (id : UUID) (req : UpdateUserRequest)
    (resp : Except StoreErr User) : Except GoErr User × List RepoStmt :=
  let (updates, args, argPosition) := updateClauses req
  if updates = [] then
    (repoGetByID resp, [RepoStmt.selectById id])
  else
    let updates := updates ++ ["updated_at = CURRENT_TIMESTAMP"]
    let args := args ++ [SqlArg.uid id]
    let query := updateQueryText (joinComma updates) argPosition
    let result : Except GoErr User :=
      match resp with
      | .ok u => .ok u
      | .error e => .error (updateErrMap e)
    (result, [RepoStmt.updateUser query args])

/-- One present field assignment of a sparse update. -/
inductive FieldAsgn
  | username (v : String)
  | email (v : String)
  | fullName (v : String)
deriving DecidableEq, Repr

/-- The column name an assignment writes. -/
def FieldAsgn.column : FieldAsgn → String
  | .username _ => "username"
  | .email _ => "email"
  | .fullName _ => "full_name"

/-- The bound value of an assignment. -/
def FieldAsgn.value : FieldAsgn → String
  | .username v => v
  | .email v => v
  | .fullName v => v

/-- The present mutable fields of a sparse update, in the fixed order username,
email, full_name — the order in which repository.Update checks them. -/
def presentFields (req : UpdateUserRequest) : List FieldAsgn :=
  (match req.username with | some v => [FieldAsgn.username v] | none => []) ++
    (match req.email with | some v => [FieldAsgn.email v] | none => []) ++
    (match req.fullName with | some v => [FieldAsgn.fullName v] | none => [])

/-- The SET clause a present field contributes when bound to positional
parameter `pos`. -/
def clauseOf (pos : Nat) (f : FieldAsgn) : String :=
  f.column ++ " = $" ++ toString pos

/-- Applying one assignment clause to a row. -/
def applyAsgn (r : User) : FieldAsgn → User
  | .username v => { r with username := v }
  | .email v => { r with email := v }
  | .fullName v => { r with fullName := v }

/-- Modelled from the spec: the relational storage engine executing the UPDATE
statement generated by repository.Update — the engine itself (PostgreSQL) is not
part of this repository's source.  Per spec sections 3 and 4.3: each assignment
clause writes its column with its bound parameter, the final
`updated_at = CURRENT_TIMESTAMP` clause writes the current server instant, the
WHERE predicate selects the row whose id matches, and the changed row is
returned (RETURNING), or zero rows when no id matches. -/
def execGeneratedUpdate (req : UpdateUserRequest) (id : UUID) (now : Nat)
    (rows : List User) : Except StoreErr User :=
  match rows.find? (fun r => r.id == id) with
  | none => .error .noRows
  | some r => .ok { (presentFields req).foldl applyAsgn r with updatedAt := now }

/-- A repository method invocation, as observed by the service layer. -/
inductive RepoCall
  | getAll
  | getByUsername (u : String)
  | getById (id : UUID)
  | create (req : CreateUserRequest)
  | update (id : UUID) (req : UpdateUserRequest)
  | delete (id : UUID)
deriving DecidableEq, Repr

/-- The white-space set trimmed by Go `strings.TrimSpace`, modelled on the ASCII
range: space, tab, newline, vertical tab, form feed, carriage return. -/
def goIsSpace (c : Char) : Bool :=
  c = ' ' || c = '\t' || c = '\n' || c = '\x0b' || c = '\x0c' || c = '\r'

/-- Trimming on the character list: drop leading and trailing white space. -/
def trimList (l : List Char) : List Char :=
  (l.dropWhile goIsSpace).rdropWhile goIsSpace

/-- Go `strings.TrimSpace`. -/
def goTrimSpace (s : String) : String := ⟨trimList s.data⟩

/-- Per-character lowering as in Go `strings.ToLower`, modelled on the ASCII
range (code points outside the basic latin letters are left unchanged in this
embedding): `A`..`Z` (65..90) shift by 32. -/
def goCharToLower (c : Char) : Char :=
  if 65 ≤ c.toNat ∧ c.toNat ≤ 90 then Char.ofNat (c.toNat + 32) else c

/-- Go `strings.ToLower`. -/
def goToLower (s : String) : String := ⟨s.data.map goCharToLower⟩

/-- `strings.TrimSpace(strings.ToLower(s))` — the normalization service.Create
and service.Update apply to username and email. -/
def normalizeIdent (s : String) : String := goTrimSpace (goToLower s)

/-- The character class of the full-name pattern `^[a-zA-Z\s\-']+$`
(internal/service/users.go line 117); the regexp class `\s` is
`[\t\n\f\r ]`, and 39 is the apostrophe code point. -/
def fullNameChar (c : Char) : Bool :=
  (97 ≤ c.toNat && c.toNat ≤ 122) || (65 ≤ c.toNat && c.toNat ≤ 90) ||
    (c = '\t' || c = '\n' || c = '\x0c' || c = '\r' || c = ' ') ||
    c = '-' || c.toNat = 39

/-- `fullNamePattern.MatchString s` for the anchored pattern: at least one
character, every character in the class. -/
def fullNameMatch (s : String) : Bool :=
  !s.data.isEmpty && s.data.all fullNameChar

/-- The detail the service attaches to `ErrInvalidInput` for a bad full name. -/
def fullNameErrDetail : String :=
  "full name must contain only letters, spaces, hyphens, and apostrophes"

/-- service.Create (internal/service/users.go lines 145-164): normalize
username/email (trim + lower-case) and full name (trim), validate the full name
against the pattern returning wrapped `ErrInvalidInput` on failure before any
repository call, else delegate to repository.Create; the repository calls made
are reported alongside the result. -/
def svcCreate (req : CreateUserRequest) (resp : Except StoreErr User) :
    Except GoErr User × List RepoCall :=
  let req' : CreateUserRequest :=
    { username := normalizeIdent req.username
      email := normalizeIdent req.email
      fullName := goTrimSpace req.fullName }
  if !fullNameMatch req'.fullName then
    (.error (.invalidInput fullNameErrDetail), [])
  else
    (repoCreate resp, [RepoCall.create req'])

/-- service.Update (internal/service/users.go lines 177-205): normalize each
present field (trim + lower-case for username/email, trim for full name);
when the full name is present, validate it returning wrapped `ErrInvalidInput`
before any repository call; then delegate to repository.Update. -/
def svcUpdate (id : UUID) (req : UpdateUserRequest)
    (resp : Except StoreErr User) : Except GoErr User × List RepoCall :=
  let req' : UpdateUserRequest :=
    { username := req.username.map normalizeIdent
      email := req.email.map normalizeIdent
      fullName := req.fullName.map goTrimSpace }
  match req'.fullName with
  | some fn =>
    if !fullNameMatch fn then
      (.error (.invalidInput fullNameErrDetail), [])
    else
      ((repoUpdate id req' resp).1, [RepoCall.update id req'])
  | none => ((repoUpdate id req' resp).1, [RepoCall.update id req'])

/-- service.Delete (internal/service/users.go lines 207-210): a plain
pass-through of repository.Delete. -/
def svcDelete (resp : Except StoreErr Nat) : Option GoErr := repoDelete resp

/-- controller.GetUserByID (internal/controller/users.go lines 80-108), status
policy for a well-formed id: `ErrUserNotFound` maps to 404, any other error to
500, success to 200. -/
def getUserByIDStatus (res : Except GoErr User) : Nat :=
  match res with
  | .ok _ => 200
  | .error e => if e.isUserNotFound then 404 else 500

/-- controller.GetUserByUsername (lines 58-78): same status policy. -/
def getUserByUsernameStatus (res : Except GoErr User) : Nat :=
  match res with
  | .ok _ => 200
  | .error e => if e.isUserNotFound then 404 else 500

/-- controller.CreateUser (lines 110-171), status policy once the body parsed:
conflicts map to 409, invalid input to 400, any other error to 500, success to
201. -/
def createUserStatus (res : Except GoErr User) : Nat :=
  match res with
  | .ok _ => 201
  | .error e =>
    if e.isUsernameExists then 409
    else if e.isEmailExists then 409
    else if e.isInvalidInput then 400
    else 500

/-- controller.UpdateUser (lines 173-247), status policy: `ErrUserNotFound`
maps to 404, conflicts to 409, invalid input to 400, any other error to 500,
success to 200. -/
def updateUserStatus (res : Except GoErr User) : Nat :=
  match res with
  | .ok _ => 200
  | .error e =>
    if e.isUserNotFound then 404
    else if e.isUsernameExists then 409
    else if e.isEmailExists then 409
    else if e.isInvalidInput then 400
    else 500

/-- controller.DeleteUser (lines 253-285), status policy for a well-formed id:
`ErrUserNotFound` from the service is absorbed into the same 204 No Content as
an actual deletion; any other error maps to 500. -/
def deleteUserStatus (res : Option GoErr) : Nat :=
  match res with
  | some e => if e.isUserNotFound then 204 else 500
  | none => 204

/-! Helper lemmas. -/

/-- Unpacking `Char.ofNat` at a code point below the surrogate range. -/
theorem charToNat_ofNat_of_lt {n : Nat} (h : n < 55296) :
    (Char.ofNat n).toNat = n := by
  unfold Char.ofNat
  rw [dif_pos (Or.inl h)]
  rfl

/-- ASCII lowering is idempotent per character. -/
theorem goCharToLower_idem (c : Char) :
    goCharToLower (goCharToLower c) = goCharToLower c := by
  unfold goCharToLower
  by_cases h : 65 ≤ c.toNat ∧ c.toNat ≤ 90
  · rw [if_pos h]
    have hv : (Char.ofNat (c.toNat + 32)).toNat = c.toNat + 32 :=
      charToNat_ofNat_of_lt (by omega)
    rw [hv, if_neg (by omega)]
  · rw [if_neg h, if_neg h]

/-- Mapping a function that fixes every member of a list is the identity. -/
theorem map_goCharToLower_fix {l : List Char}
    (hl : ∀ c ∈ l, goCharToLower c = c) : l.map goCharToLower = l :=
  (List.map_congr_left hl).trans (List.map_id l)

/-- Trimming is idempotent on character lists. -/
theorem trimList_idem (l : List Char) : trimList (trimList l) = trimList l := by
  unfold trimList
  have h1 : (l.dropWhile goIsSpace).dropWhile goIsSpace = l.dropWhile goIsSpace :=
    List.dropWhile_idempotent goIsSpace l
  have hpre := List.rdropWhile_prefix goIsSpace (l.dropWhile goIsSpace)
  have h2 : ((l.dropWhile goIsSpace).rdropWhile goIsSpace).dropWhile goIsSpace =
      (l.dropWhile goIsSpace).rdropWhile goIsSpace := by
    rw [List.dropWhile_eq_self_iff]
    intro hl
    have hml : 0 < (l.dropWhile goIsSpace).length :=
      Nat.lt_of_lt_of_le hl hpre.length_le
    have hhead := List.dropWhile_eq_self_iff.mp h1 hml
    simp only [List.get_eq_getElem] at hhead ⊢
    rw [hpre.getElem hl]
    exact hhead
  rw [h2, List.rdropWhile_idempotent]

/-- Every character of a trimmed list is a character of the original list. -/
theorem mem_trimList {c : Char} {l : List Char} (h : c ∈ trimList l) : c ∈ l := by
  unfold trimList at h
  have h2 := List.rdropWhile_prefix goIsSpace (l.dropWhile goIsSpace)
  have h3 : c ∈ l.dropWhile goIsSpace := h2.sublist.subset h
  exact (List.dropWhile_suffix goIsSpace).sublist.subset h3

/-- `createErrMap` never yields the domain not-found error. -/
theorem isNotFound_createErrMap (e : StoreErr) :
    isNotFoundResult (Except.error (createErrMap e) : Except GoErr User) = false := by
  cases e with
  | noRows => rfl
  | other m => rfl
  | pq code msg =>
    simp only [createErrMap]
    split_ifs <;> rfl

/-! Claims. -/

/-- Claim C1, counterexample: a storage error that is not a recognized
uniqueness violation (a driver connection error), and a uniqueness violation
whose field cannot be determined from the message, are both returned raw by
repository.Create — not classified as `ErrDatabaseOperation` — so a raw storage
error does leak past the repository boundary, refuting the claim as stated. -/
theorem raw_storage_error_leak_cex :
    repoCreate (.error (.other "connection reset")) =
      .error (.raw (.other "connection reset"))
  ∧ isTaxonomyErr (.raw (.other "connection reset")) = false
  ∧ (GoErr.raw (.other "connection reset")).isDatabaseOp = false
  ∧ createErrMap (.pq "23505" "duplicate key value violates constraint idx_x") =
      .raw (.pq "23505" "duplicate key value violates constraint idx_x")
  ∧ isTaxonomyErr
      (createErrMap (.pq "23505" "duplicate key value violates constraint idx_x")) =
      false := by
  refine ⟨rfl, rfl, rfl, ?_, ?_⟩ <;> rfl

/-- Claim C1, amended: every error returned by a repository operation is either
one of the recognized domain sentinels (`ErrUserNotFound` for zero rows,
`ErrUsernameExists`/`ErrEmailExists` for a determinable uniqueness violation) or
the raw storage error passed through unchanged; `ErrDatabaseOperation`
(StorageFailure) is never produced by any repository operation. -/
theorem repo_error_classification (e : StoreErr) :
    (createErrMap e = .usernameExists ∨ createErrMap e = .emailExists ∨
      createErrMap e = .raw e)
  ∧ (updateErrMap e = .userNotFound ∨ updateErrMap e = .usernameExists ∨
      updateErrMap e = .emailExists ∨ updateErrMap e = .raw e)
  ∧ repoGetAll (.error e) = .error (.raw e)
  ∧ (repoGetByID (.error e) = .error .userNotFound ∨
      repoGetByID (.error e) = .error (.raw e))
  ∧ (repoGetByUsername (.error e) = .error .userNotFound ∨
      repoGetByUsername (.error e) = .error (.raw e))
  ∧ repoDelete (.error e) = some (.raw e)
  ∧ (createErrMap e).isDatabaseOp = false
  ∧ (updateErrMap e).isDatabaseOp = false := by
  refine ⟨?_, ?_, rfl, ?_, ?_, rfl, ?_, ?_⟩ <;>
    cases e <;>
      first
        | (simp only [createErrMap, updateErrMap]; split_ifs <;> simp [GoErr.isDatabaseOp])
        | simp [repoGetByID, repoGetByUsername, createErrMap, updateErrMap,
            GoErr.isDatabaseOp]

/-- Claim C2: for every non-empty sparse update request, the builder emits the
assignment clauses in the fixed field order username, email, full_name, each
bound to the next positional parameter (`clauseOf (i+1)` for the i-th present
field), then always appends the `updated_at = CURRENT_TIMESTAMP` clause, and
binds the record identifier as the final positional parameter; the statement is
a pure function of the request, so two calls with the same input produce
byte-identical statements. -/
theorem update_builder_fixed_order (req : UpdateUserRequest)
    (h : presentFields req ≠ []) :
    updateClauses req =
      ((presentFields req).enum.map (fun p => clauseOf (p.1 + 1) p.2),
       (presentFields req).map (fun f => SqlArg.s f.value),
       (presentFields req).length + 1)
  ∧ ∀ (id : UUID) (resp : Except StoreErr User),
      (repoUpdate id req resp).2 =
        [RepoStmt.updateUser
          (updateQueryText
            (joinComma
              ((presentFields req).enum.map (fun p => clauseOf (p.1 + 1) p.2) ++
                ["updated_at = CURRENT_TIMESTAMP"]))
            ((presentFields req).length + 1))
          ((presentFields req).map (fun f => SqlArg.s f.value) ++ [SqlArg.uid id])] := by
  obtain ⟨u, e, f⟩ := req
  cases u <;> cases e <;> cases f <;>
    first
      | exact absurd rfl h
      | exact ⟨rfl, fun id resp => rfl⟩

/-- Claim C2, witness: a request with username and full name present yields the
clause list in fixed order with sequential parameters. -/
theorem update_builder_fixed_order_witness :
    presentFields ⟨some "alice", none, some "Alice B"⟩ ≠ [] ∧
    updateClauses ⟨some "alice", none, some "Alice B"⟩ =
      ((presentFields ⟨some "alice", none, some "Alice B"⟩).enum.map
        (fun p => clauseOf (p.1 + 1) p.2),
       (presentFields ⟨some "alice", none, some "Alice B"⟩).map
        (fun f => SqlArg.s f.value),
       (presentFields ⟨some "alice", none, some "Alice B"⟩).length + 1) :=
  ⟨by decide, (update_builder_fixed_order ⟨some "alice", none, some "Alice B"⟩
    (by decide)).1⟩

/-- Claim C3: an update request with no fields present issues no write
statement — the only statement issued is the SELECT of GetByID — and returns
exactly the result of GetByID for every driver response. -/
theorem empty_update_delegates_to_get (id : UUID) (resp : Except StoreErr User) :
    repoUpdate id ⟨none, none, none⟩ resp = (repoGetByID resp, [RepoStmt.selectById id])
  ∧ ((repoUpdate id ⟨none, none, none⟩ resp).2.all fun s => !s.isWrite) = true :=
  ⟨rfl, rfl⟩

/-- Claim C4: deleting an identity that matches no record (zero rows affected)
returns `ErrUserNotFound` at the repository; the boundary DeleteUser policy maps
exactly that error to the same 204 success signal as an actual deletion; for
get-by-id, get-by-username and update the boundary maps `ErrUserNotFound` to a
caller-visible 404, and the create path can never produce `ErrUserNotFound` at
all (its handler has no not-found branch). -/
theorem delete_notfound_policy (n : Nat) (req : CreateUserRequest)
    (resp : Except StoreErr User) :
    repoDelete (.ok 0) = some .userNotFound
  ∧ deleteUserStatus (svcDelete (.ok 0)) = 204
  ∧ deleteUserStatus (svcDelete (.ok (n + 1))) = 204
  ∧ getUserByIDStatus (.error .userNotFound) = 404
  ∧ getUserByUsernameStatus (.error .userNotFound) = 404
  ∧ updateUserStatus (.error .userNotFound) = 404
  ∧ isNotFoundResult (svcCreate req resp).1 = false := by
  refine ⟨rfl, rfl, ?_, rfl, rfl, rfl, ?_⟩
  · simp [svcDelete, repoDelete, deleteUserStatus]
  · by_cases hm : fullNameMatch (goTrimSpace req.fullName)
    · cases resp with
      | ok u => simp [svcCreate, hm, repoCreate, isNotFoundResult]
      | error e =>
        simpa [svcCreate, hm, repoCreate] using isNotFound_createErrMap e
    · simp [svcCreate, hm, isNotFoundResult]

/-- Claim C5: a fetch by id or by username that matches zero rows
(`sql.ErrNoRows`) returns the `ErrUserNotFound` taxonomy error, and no error
response is ever turned into a success. -/
theorem fetch_zero_rows_not_found (e : StoreErr) :
    repoGetByID (.error .noRows) = .error .userNotFound
  ∧ repoGetByUsername (.error .noRows) = .error .userNotFound
  ∧ exceptIsOk (repoGetByID (.error e)) = false
  ∧ exceptIsOk (repoGetByUsername (.error e)) = false := by
  refine ⟨rfl, rfl, ?_, ?_⟩ <;> cases e <;> rfl

/-- Claim C6: a create whose trimmed full name fails the letters, spaces,
hyphens, apostrophes pattern returns wrapped `ErrInvalidInput` with no
repository call; an update whose present full-name field fails the pattern
(after trimming) does the same; an update with the full-name field absent
applies no such validation and always delegates to the repository. -/
theorem fullname_validation_short_circuits (req : CreateUserRequest)
    (id : UUID) (ureq : UpdateUserRequest) (resp rresp : Except StoreErr User)
    (fn : String)
    (hc : fullNameMatch (goTrimSpace req.fullName) = false)
    (hu : ureq.fullName = some fn)
    (hf : fullNameMatch (goTrimSpace fn) = false) :
    svcCreate req resp = (.error (.invalidInput fullNameErrDetail), [])
  ∧ svcUpdate id ureq rresp = (.error (.invalidInput fullNameErrDetail), [])
  ∧ ∀ (u em : Option String) (r2 : Except StoreErr User),
      svcUpdate id ⟨u, em, none⟩ r2 =
        ((repoUpdate id ⟨u.map normalizeIdent, em.map normalizeIdent, none⟩ r2).1,
         [RepoCall.update id ⟨u.map normalizeIdent, em.map normalizeIdent, none⟩]) := by
  refine ⟨?_, ?_, fun u em r2 => rfl⟩
  · simp [svcCreate, hc]
  · simp [svcUpdate, hu, hf]

/-- Claim C6, witness: create with full name `"John123"` (and an update carrying
it) short-circuits with `ErrInvalidInput` and an empty repository-call list. -/
theorem fullname_validation_short_circuits_witness :
    fullNameMatch (goTrimSpace " John123 ") = false
  ∧ (⟨none, none, some "John123"⟩ : UpdateUserRequest).fullName = some "John123"
  ∧ fullNameMatch (goTrimSpace "John123") = false
  ∧ svcCreate ⟨"Johnny", "j@x.com", " John123 "⟩ (.error .noRows) =
      (.error (.invalidInput fullNameErrDetail), []) :=
  ⟨by decide, rfl, by decide,
    (fullname_validation_short_circuits ⟨"Johnny", "j@x.com", " John123 "⟩
      0 ⟨none, none, some "John123"⟩ (.error .noRows) (.error .noRows) "John123"
      (by decide) rfl (by decide)).1⟩

/-- Claim C7: the service normalization is idempotent — trimming plus
lower-casing applied to username/email, and trimming applied to the full name,
are each no-ops on already-normalized values. -/
theorem normalization_idempotent (s : String) :
    normalizeIdent (normalizeIdent s) = normalizeIdent s ∧
    goTrimSpace (goTrimSpace s) = goTrimSpace s := by
  constructor
  · show (⟨trimList ((⟨trimList (s.data.map goCharToLower)⟩ : String).data.map
      goCharToLower)⟩ : String) = ⟨trimList (s.data.map goCharToLower)⟩
    have hfix : ∀ c ∈ trimList (s.data.map goCharToLower), goCharToLower c = c := by
      intro c hc
      obtain ⟨b, hb, rfl⟩ := List.mem_map.mp (mem_trimList hc)
      exact goCharToLower_idem b
    have hmap : (⟨trimList (s.data.map goCharToLower)⟩ : String).data.map
        goCharToLower = trimList (s.data.map goCharToLower) :=
      map_goCharToLower_fix hfix
    rw [hmap, trimList_idem]
  · show (⟨trimList ((⟨trimList s.data⟩ : String).data)⟩ : String) = ⟨trimList s.data⟩
    rw [show (⟨trimList s.data⟩ : String).data = trimList s.data from rfl,
      trimList_idem]

/-- Claim C8: an update in which only the full-name field is present generates
a statement whose only assignment clauses are `full_name = $1` and
`updated_at = CURRENT_TIMESTAMP` with the identifier as final parameter, and
executing it on a table holding the targeted record changes only the full name
and the update timestamp: id, username, email and created_at are unchanged. -/
theorem update_only_fullname_frame (id : UUID) (now : Nat) (v : String)
    (rows : List User) (r : User)
    (hfind : rows.find? (fun x => x.id == id) = some r) :
    (updateClauses ⟨none, none, some v⟩).1 = ["full_name = $1"]
  ∧ (updateClauses ⟨none, none, some v⟩).2.1 = [SqlArg.s v]
  ∧ (∀ resp : Except StoreErr User,
      (repoUpdate id ⟨none, none, some v⟩ resp).2 =
        [RepoStmt.updateUser
          (updateQueryText "full_name = $1, updated_at = CURRENT_TIMESTAMP" 2)
          [SqlArg.s v, SqlArg.uid id]])
  ∧ execGeneratedUpdate ⟨none, none, some v⟩ id now rows =
      .ok { r with fullName := v, updatedAt := now } := by
  refine ⟨rfl, rfl, fun resp => rfl, ?_⟩
  unfold execGeneratedUpdate
  rw [hfind]
  rfl

/-- Claim C8, witness: updating only the full name of the record `alice` leaves
id, username, email and created_at untouched. -/
theorem update_only_fullname_frame_witness :
    ([⟨3, "alice", "alice@x.com", "Alice A", 1, 1⟩] :
        List User).find? (fun x => x.id == 3) =
      some ⟨3, "alice", "alice@x.com", "Alice A", 1, 1⟩
  ∧ execGeneratedUpdate ⟨none, none, some "Alice B"⟩ 3 9
      [⟨3, "alice", "alice@x.com", "Alice A", 1, 1⟩] =
      .ok ⟨3, "alice", "alice@x.com", "Alice B", 1, 9⟩ :=
  ⟨by decide,
    (update_only_fullname_frame 3 9 "Alice B"
      [⟨3, "alice", "alice@x.com", "Alice A", 1, 1⟩]
      ⟨3, "alice", "alice@x.com", "Alice A", 1, 1⟩ (by decide)).2.2.2⟩

/-- Claim C9: a unique-violation (code 23505) whose message contains
"username" is classified as `ErrUsernameExists` by both the Create and the
Update classifier, regardless of whether the message also contains "email" —
the username check takes precedence. -/
theorem unique_violation_username_precedence (msg : String)
    (h : goContains msg "username" = true) :
    createErrMap (.pq "23505" msg) = .usernameExists ∧
    updateErrMap (.pq "23505" msg) = .usernameExists := by
  constructor <;> simp [createErrMap, updateErrMap, h]

/-- Claim C9, witness: a message naming both indexed columns maps to the
username conflict. -/
theorem unique_violation_username_precedence_witness :
    goContains "duplicate key on username and email columns" "username" = true
  ∧ goContains "duplicate key on username and email columns" "email" = true
  ∧ createErrMap (.pq "23505" "duplicate key on username and email columns") =
      .usernameExists
  ∧ updateErrMap (.pq "23505" "duplicate key on username and email columns") =
      .usernameExists :=
  ⟨by decide, by decide,
    (unique_violation_username_precedence _ (by decide)).1,
    (unique_violation_username_precedence _ (by decide)).2⟩

/-- Claim C10: GetAll never returns the not-found taxonomy error, and a
successful query over an empty table returns success with the empty (nil)
list. -/
theorem getall_never_notfound (resp : Except StoreErr (List User)) :
    isNotFoundResult (repoGetAll resp) = false
  ∧ repoGetAll (.ok []) = .ok ([] : List User) := by
  refine ⟨?_, rfl⟩
  cases resp with
  | ok us => rfl
  | error e => rfl

end Cruder
